import Mathlib

/-!
Formal model of the parsnip repository: the regex-driven lexer of
src/simplex.py, the Pratt parser engine of src/parsnip.py, and the demo
calculator grammar of src/demo.py.

Modelling conventions: Python exceptions become an explicit error type
`PErr`; the lazy token generator becomes a list consumed through an
explicit parser state; the regex engine, an external collaborator, is
abstracted as a function from the current input suffix to the leftmost
alternation match (tag, length of the whole match, selected text); the
unbounded recursion of `Parser._parse` is indexed by explicit fuel, so a
run that returns `outOfFuel` for every amount of fuel corresponds to a
Python run that never terminates.  Parse-time values are generic in `V`;
the demo calculator is instantiated at `V := Int` (symbol tokens, whose
value in Python is their text and is never read by any demo handler, carry
the value 0; `DIV`, never exercised by a verified input, uses `Int`
division in place of Python float division).
-/

/-- Exceptions raised by the lexer and the parser, plus the fuel marker of
the model.  `unexpectedToken` is the parser's
`SyntaxError('Unexpected token: ...')` carrying the token's raw text;
`unableToParse` is the `SyntaxError` raised by `simplex.lex_error`;
`keyError` is the Python `KeyError` of the unchecked dictionary access in
the climbing loop of `Parser._parse`, carrying the missing tag;
`typeError` is the arity `TypeError` raised when `Parser._call_left`
passes two arguments to the one-parameter closure installed by
`Parser._add_postfix`; `nullAlreadyDefined` and `leftAlreadyDefined` are
the two `RuntimeError`s of `Parselet.update`; `stopIteration` is the
`StopIteration` that escapes `Parser.parse` when the token stream is
empty. -/
inductive PErr where
  | unexpectedToken (text : String)
  | unableToParse (text : String)
  | keyError (tag : String)
  | typeError
  | nullAlreadyDefined
  | leftAlreadyDefined
  | stopIteration
  | outOfFuel
  deriving DecidableEq

deriving instance DecidableEq for Except

/-- A token of simplex.py: `Token = namedtuple('token', 'tag value text')`.
`value` is the result of the tag's conversion function on the selected
match text, `text` the selected match text itself. -/
structure Token (V : Type) where
  tag : String
  value : V
  text : String
  deriving DecidableEq

/-! ## Lexer (src/simplex.py)

The compiled master regex is abstracted as a matcher
`m : List Char → Option (String × Nat × List Char)`: applied to the
current suffix of the input it returns the tag of the first alternative
that matches there, the length of the whole match, and the selected text
(`match_text` in `Lexer.lex`: the single non-empty inner group when there
is exactly one besides the tag group, otherwise the whole match).  `none`
means no alternative matches at this position, in which case `re.finditer`
moves one character forward. -/

/-- The body of the `re.finditer` scan of `Lexer.lex`, recursing
structurally on a bound that `scanMatches` instantiates with the input
length (every step consumes at least one character, so the bound is never
the reason the scan stops): the list of matches, each with its tag, the
characters of the whole match span, and the selected text.  Where no
alternative matches, the scan moves one character forward; a zero-width
match is recorded and the scan then moves one character forward. -/
def scanGo (m : List Char → Option (String × Nat × List Char)) :
    Nat → List Char → List (String × List Char × List Char)
  | _, [] => []
  | 0, _ :: _ => []
  | bound + 1, c :: rest =>
    match m (c :: rest) with
    | none => scanGo m bound rest
    | some (t, n, sel) =>
      if n = 0 then (t, [], sel) :: scanGo m bound rest
      else (t, c :: List.take (n - 1) rest, sel) ::
        scanGo m bound (List.drop (n - 1) rest)

/-- The `re.finditer` scan of `Lexer.lex` over a whole input. -/
def scanMatches (m : List Char → Option (String × Nat × List Char))
    (l : List Char) : List (String × List Char × List Char) :=
  scanGo m l.length l

/-- Python `p.startswith(q)`, computed on the character lists. -/
def strStartsWith (s p : String) : Bool := p.data.isPrefixOf s.data

/-- The token-emission loop of `Lexer.lex`: a match whose tag starts with
`IGNORE` is skipped with `continue`; otherwise the tag's conversion
function from `tag_map` is applied to the selected text (it may raise, as
`lex_error` does) and a `Token` is produced. -/
def emitTokens {V : Type} (tagMap : String → String → Except PErr V) :
    List (String × List Char × List Char) → Except PErr (List (Token V))
  | [] => .ok []
  | (t, _, sel) :: rest =>
    if strStartsWith t "IGNORE" then emitTokens tagMap rest
    else
      match tagMap t (String.mk sel) with
      | .error e => .error e
      | .ok v =>
        match emitTokens tagMap rest with
        | .error e => .error e
        | .ok toks => .ok (⟨t, v, String.mk sel⟩ :: toks)

/-- `Lexer.lex`: scan the input with the master regex and emit tokens.
The Python generator is lazy; the model is the list of all tokens it can
yield, or the first exception it raises. -/
def lexTokens {V : Type} (tagMap : String → String → Except PErr V)
    (m : List Char → Option (String × Nat × List Char)) (input : String) :
    Except PErr (List (Token V)) :=
  emitTokens tagMap (scanMatches m input.data)

/-- A scan position is covered when the matcher produces a match of
nonzero length there through one of the configured patterns, not the
appended catch-all (whose tag is `LEX_ERROR`). -/
def coveredAt (m : List Char → Option (String × Nat × List Char))
    (s : List Char) : Bool :=
  match m s with
  | none => false
  | some (t, n, _) => (t != "LEX_ERROR") && (n != 0)

/-! ### The demo calculator lexer (class CalcLex of src/demo.py)

`CalcLex` registers, in the order `Lexer.__init__` collects them: the
decorated tag `INT` with pattern `-?\d+`, the ignore patterns `\s+` and
`\n`, the symbols `ADD +`, `SUB -`, `MUL *`, `DIV /`, `LPAREN (`,
`RPAREN )`, and finally the implicit catch-all `LEX_ERROR .`.  The master
alternation tries these in that order at each position; none of the
patterns has an inner group, so the selected text is always the whole
match. -/

/-- The digit class `\d` restricted to ASCII, as matched by these
patterns. -/
def isDigitChar (c : Char) : Bool := ('0' ≤ c) && (c ≤ '9')

/-- The whitespace class `\s` over the characters the demo can contain. -/
def isSpaceChar (c : Char) : Bool :=
  (c = ' ') || (c = '\t') || (c = '\n') || (c = '\r') ||
    (c = '\x0b') || (c = '\x0c')

/-- Length of the greedy match of `-?\d+` at the head of the suffix, if
any: an optional minus sign must be followed by at least one digit, and
without it the suffix must begin with a digit. -/
def intMatchLen : List Char → Option Nat
  | [] => none
  | '-' :: rest =>
    let d := (rest.takeWhile isDigitChar).length
    if d = 0 then none else some (d + 1)
  | l =>
    let d := (l.takeWhile isDigitChar).length
    if d = 0 then none else some d

/-- Length of the greedy match of `\s+` at the head of the suffix. -/
def spaceMatchLen (l : List Char) : Nat := (l.takeWhile isSpaceChar).length

/-- The compiled master alternation of `CalcLex`, tried first-alternative
first at the current position, each alternative matching greedily; the
catch-all `.` matches any single character except a newline (a newline is
always taken by `\s+` first). -/
def calcMatch (s : List Char) : Option (String × Nat × List Char) :=
  match intMatchLen s with
  | some n => some ("INT", n, s.take n)
  | none =>
    let sp := spaceMatchLen s
    if sp ≠ 0 then some ("IGNORE0", sp, s.take sp)
    else
      match s with
      | [] => none
      | c :: _ =>
        if c = '\n' then some ("IGNORE1", 1, [c])
        else if c = '+' then some ("ADD", 1, [c])
        else if c = '-' then some ("SUB", 1, [c])
        else if c = '*' then some ("MUL", 1, [c])
        else if c = '/' then some ("DIV", 1, [c])
        else if c = '(' then some ("LPAREN", 1, [c])
        else if c = ')' then some ("RPAREN", 1, [c])
        else some ("LEX_ERROR", 1, [c])

/-- The value of a digit string, as `int` computes it. -/
def digitsVal (l : List Char) : Int :=
  l.foldl (fun a c => a * 10 + (Int.ofNat (c.toNat - '0'.toNat))) 0

/-- Python `int(s)` on the strings matched by `-?\d+`. -/
def strToInt (s : List Char) : Int :=
  match s with
  | '-' :: rest => - digitsVal rest
  | l => digitsVal l

/-- The `tag_map` of `CalcLex`: `LEX_ERROR` is preset to `lex_error`,
which raises; the decorated tag `INT` converts with `int`; the plain
symbols map to `lambda s: s`, whose (string) result no demo handler ever
reads, modelled as the value 0 at `V := Int`. -/
def tagMapCalc : String → String → Except PErr Int := fun tag s =>
  if tag = "LEX_ERROR" then .error (.unableToParse s)
  else if tag = "INT" then .ok (strToInt s.data)
  else .ok 0

/-- A variant of `tagMapCalc` that differs only on tags whose name starts
with `IGNORE`, used to observe that such conversions are never applied. -/
def tagMapCalcIgn : String → String → Except PErr Int := fun tag s =>
  if strStartsWith tag "IGNORE" then .ok 99 else tagMapCalc tag s

/-- A one-alternative matcher that covers every position with a single
character match, a minimal concrete instance of a total grammar. -/
def oneCharMatch : List Char → Option (String × Nat × List Char)
  | [] => none
  | c :: _ => some ("CHAR", 1, [c])

/-! ## Parser (src/parsnip.py) -/

/-- The null handlers `Parser` can install: `_add_prefix` installs a
closure that parses an operand bound at the registration precedence and
applies the handler; `_add_surrounding` installs a closure that parses an
unbounded body, then calls `_advance` on the closing tag (discarding its
result), and applies the handler; `_add_literal` installs
`lambda value: value`. -/
inductive NullH (V : Type) where
  | prefixH (precedence : Int) (f : V → V)
  | surroundH (close : String) (f : V → V)
  | literalH

/-- The left handlers `Parser` can install: `_add_infix` installs a
closure that parses the right operand bound at the registration
precedence and applies the handler to (left, right); `_add_postfix`
installs a one-parameter closure `def left(token): return
func(token.value)` which `_call_left` then invokes with two arguments. -/
inductive LeftH (V : Type) where
  | infixH (precedence : Int) (f : V → V → V)
  | postfixH (f : V → V)

/-- A `Parselet`: a binding power and up to one null and one left
handler. -/
structure Parselet (V : Type) where
  precedence : Int
  null : Option (NullH V)
  left : Option (LeftH V)

/-- `Parselet.update`: take the maximum of the precedences, then install
the null handler (raising `RuntimeError('null handler already defined')`
if one is present), then the left handler (likewise). -/
def Parselet.update {V : Type} (p : Parselet V) (precedence : Int)
    (nullh : Option (NullH V)) (lefth : Option (LeftH V)) :
    Except PErr (Parselet V) :=
  let p1 : Parselet V := { p with precedence := max p.precedence precedence }
  match nullh with
  | none =>
    match lefth with
    | none => .ok p1
    | some h =>
      match p1.left with
      | none => .ok { p1 with left := some h }
      | some _ => .error .leftAlreadyDefined
  | some h =>
    match p1.null with
    | some _ => .error .nullAlreadyDefined
    | none =>
      let p2 : Parselet V := { p1 with null := some h }
      match lefth with
      | none => .ok p2
      | some h2 =>
        match p2.left with
        | none => .ok { p2 with left := some h2 }
        | some _ => .error .leftAlreadyDefined

/-- The registry `Parser.parselets`, a dict from tag to `Parselet`. -/
abbrev Table (V : Type) := List (String × Parselet V)

/-- Set a key in the dict, replacing an existing binding in place or
appending a new one. -/
def dictSet {V : Type} (tbl : Table V) (tag : String) (p : Parselet V) :
    Table V :=
  match tbl with
  | [] => [(tag, p)]
  | (k, q) :: rest =>
    if k = tag then (tag, p) :: rest else (k, q) :: dictSet rest tag p

/-- `Parser._add_or_update_parselet`: update an existing parselet or
create a fresh one. -/
def addOrUpdateParselet {V : Type} (tbl : Table V) (tag : String)
    (precedence : Int) (nullh : Option (NullH V))
    (lefth : Option (LeftH V)) : Except PErr (Table V) :=
  match List.lookup tag tbl with
  | some existing =>
    match existing.update precedence nullh lefth with
    | .error e => .error e
    | .ok p => .ok (dictSet tbl tag p)
  | none => .ok (dictSet tbl tag ⟨precedence, nullh, lefth⟩)

/-- `Parser._add_null_handler`. -/
def addNullHandler {V : Type} (tbl : Table V) (tag : String)
    (precedence : Int) (h : NullH V) : Except PErr (Table V) :=
  addOrUpdateParselet tbl tag precedence (some h) none

/-- `Parser._add_left_handler`. -/
def addLeftHandler {V : Type} (tbl : Table V) (tag : String)
    (precedence : Int) (h : LeftH V) : Except PErr (Table V) :=
  addOrUpdateParselet tbl tag precedence none (some h)

/-- `Parser._add_symbol`. -/
def addSymbol {V : Type} (tbl : Table V) (tag : String) :
    Except PErr (Table V) :=
  addOrUpdateParselet tbl tag 0 none none

/-- One grammar registration, as collected by `Parser.__init__` from the
decorators `prefix`, `infix`, `infix_r`, `postfix` and `surrounding` and
from the `SYMBOLS` and `LITERALS` class lists. -/
inductive Reg (V : Type) where
  | prefixReg (tag : String) (precedence : Int) (f : V → V)
  | infixReg (tag : String) (precedence : Int) (f : V → V → V)
  | infixRReg (tag : String) (precedence : Int) (f : V → V → V)
  | postfixReg (tag : String) (precedence : Int) (f : V → V)
  | surroundingReg (start stop : String) (precedence : Int) (f : V → V)
  | symbolReg (tag : String)
  | literalReg (tag : String)

/-- Apply one registration to the registry.  The `infix_r` decorator
stores `precedence - 1` on the function and `Parser.__init__` then treats
it exactly like an `infix` registration, so both the installed parselet
precedence and the right-operand bound are `precedence - 1`.  A
`surrounding` registration first registers the closing tag as a plain
symbol, then installs the null handler on the opening tag. -/
def applyReg {V : Type} (tbl : Table V) : Reg V → Except PErr (Table V)
  | .prefixReg tag prec f => addNullHandler tbl tag prec (.prefixH prec f)
  | .infixReg tag prec f => addLeftHandler tbl tag prec (.infixH prec f)
  | .infixRReg tag prec f =>
    addLeftHandler tbl tag (prec - 1) (.infixH (prec - 1) f)
  | .postfixReg tag prec f => addLeftHandler tbl tag prec (.postfixH f)
  | .surroundingReg s e prec f =>
    match addSymbol tbl e with
    | .error err => .error err
    | .ok tbl1 => addNullHandler tbl1 s prec (.surroundH e f)
  | .symbolReg tag => addSymbol tbl tag
  | .literalReg tag => addNullHandler tbl tag 0 .literalH

/-- Fold the registrations into a registry, stopping at the first
configuration error, as `Parser.__init__` does. -/
def buildFrom {V : Type} (tbl : Table V) :
    List (Reg V) → Except PErr (Table V)
  | [] => .ok tbl
  | r :: rs =>
    match applyReg tbl r with
    | .error e => .error e
    | .ok tbl1 => buildFrom tbl1 rs

/-- Build the registry of `Parser.__init__` from an empty dict. -/
def buildParselets {V : Type} (regs : List (Reg V)) :
    Except PErr (Table V) :=
  buildFrom [] regs

/-- The mutable parsing state of `Parser`: the not-yet-consumed rest of
the token generator, the one-token lookahead, and the `input_remaining`
flag. -/
structure PState (V : Type) where
  toks : List (Token V)
  lookahead : Token V
  inputRemaining : Bool
  deriving DecidableEq

/-- `Parser._advance`: if the lookahead carries the expected tag, return
it and pull the next token (setting `input_remaining` to false when the
stream is exhausted); otherwise return `none` and leave the state
unchanged. -/
def advanceTok {V : Type} (st : PState V) (tag : String) :
    Option (Token V) × PState V :=
  if st.lookahead.tag = tag then
    match st.toks with
    | [] => (some st.lookahead, { st with inputRemaining := false })
    | t :: ts => (some st.lookahead, { st with lookahead := t, toks := ts })
  else (none, st)

/-- `Parser._get_parselet`: look the token's tag up in the registry,
raising `SyntaxError('Unexpected token: ...')` with the token's raw text
when there is no entry. -/
def getParselet {V : Type} (tbl : Table V) (tok : Token V) :
    Except PErr (Parselet V) :=
  match List.lookup tok.tag tbl with
  | none => .error (.unexpectedToken tok.text)
  | some p => .ok p

/-- The handler-resolution part of `Parser._call_null`: find the parselet
and its null handler, raising the same `SyntaxError` when the handler is
absent. -/
def nullHandlerOf {V : Type} (tbl : Table V) (tok : Token V) :
    Except PErr (NullH V) :=
  match getParselet tbl tok with
  | .error e => .error e
  | .ok p =>
    match p.null with
    | none => .error (.unexpectedToken tok.text)
    | some h => .ok h

/-- The handler-resolution part of `Parser._call_left`: find the parselet
and its left handler, raising the same `SyntaxError` when the handler is
absent. -/
def leftHandlerOf {V : Type} (tbl : Table V) (tok : Token V) :
    Except PErr (LeftH V) :=
  match getParselet tbl tok with
  | .error e => .error e
  | .ok p =>
    match p.left with
    | none => .error (.unexpectedToken tok.text)
    | some h => .ok h

/-- `Parser._parse`, indexed by fuel.  With no carried left value the
current lookahead is consumed (if the stream is already exhausted,
`early_return` is set and the lookahead left stale), its null handler is
resolved and run (a prefix handler parses its operand bound at the
registration precedence, a surrounding handler parses an unbounded body
and then discards the result of `_advance` on the closing tag, a literal
handler forwards the token's value); on an early return
`input_remaining` is cleared and the climbing loop is skipped.  The
climbing loop looks the lookahead's tag up with an unchecked dict access
(`KeyError` on a missing tag), and while `max_bind` is strictly below
that parselet's precedence it consumes the token (a `StopIteration` while
pulling the next token ends the loop before the left handler runs),
resolves the left handler (an infix handler parses the right operand
bound at its registration precedence and combines; the closure installed
for a postfix registration takes one parameter while `_call_left` passes
two, raising `TypeError`), and continues with the combined value. -/
def parseExpr {V : Type} (tbl : Table V) :
    Nat → Int → Option V → PState V → Except PErr (V × PState V)
  | 0, _, _, _ => .error .outOfFuel
  | fuel + 1, maxBind, none, st =>
    let initial := st.lookahead
    let earlyReturn : Bool := st.toks.isEmpty
    let st1 : PState V :=
      match st.toks with
      | [] => st
      | t :: ts => { st with lookahead := t, toks := ts }
    match nullHandlerOf tbl initial with
    | .error e => .error e
    | .ok h =>
      let res : Except PErr (V × PState V) :=
        match h with
        | .literalH => .ok (initial.value, st1)
        | .prefixH prec f =>
          match parseExpr tbl fuel prec none st1 with
          | .error e => .error e
          | .ok (v, st2) => .ok (f v, st2)
        | .surroundH close f =>
          match parseExpr tbl fuel 0 none st1 with
          | .error e => .error e
          | .ok (body, st2) => .ok (f body, (advanceTok st2 close).2)
      match res with
      | .error e => .error e
      | .ok (v, st2) =>
        if earlyReturn then .ok (v, { st2 with inputRemaining := false })
        else parseExpr tbl fuel maxBind (some v) st2
  | fuel + 1, maxBind, some leftValue, st =>
    match List.lookup st.lookahead.tag tbl with
    | none => .error (.keyError st.lookahead.tag)
    | some p =>
      if maxBind < p.precedence then
        match st.toks with
        | [] => .ok (leftValue, { st with inputRemaining := false })
        | t :: ts =>
          match leftHandlerOf tbl st.lookahead with
          | .error e => .error e
          | .ok h =>
            match h with
            | .infixH prec f =>
              match parseExpr tbl fuel prec none
                  { st with lookahead := t, toks := ts } with
              | .error e => .error e
              | .ok (r, st2) =>
                parseExpr tbl fuel maxBind (some (f leftValue r)) st2
            | .postfixH _ => .error .typeError
      else .ok (leftValue, st)

/-- The top-level loop of `Parser.parse`: while `input_remaining`, call
`_parse(left_value=val)` carrying the previous value as seed. -/
def parseTop {V : Type} (tbl : Table V) :
    Nat → Option V → PState V → Except PErr (Option V)
  | 0, _, _ => .error .outOfFuel
  | fuel + 1, val, st =>
    if st.inputRemaining then
      match parseExpr tbl fuel 0 val st with
      | .error e => .error e
      | .ok (v, st2) => parseTop tbl fuel (some v) st2
    else .ok val

/-- `Parser.parse` on an already-lexed token stream: prime the lookahead
with the first token (an empty stream makes the initial `next` raise
`StopIteration`, which escapes `parse`), set `input_remaining`, and run
the top-level loop. -/
def parseProgram {V : Type} (tbl : Table V) (fuel : Nat)
    (toks : List (Token V)) : Except PErr (Option V) :=
  match toks with
  | [] => .error .stopIteration
  | t :: ts => parseTop tbl fuel none ⟨ts, t, true⟩

/-! ## The demo grammars -/

/-- The `negate` handler of `CalcParse`: `@prefix('SUB', 10)`. -/
def negF : Int → Int := fun v => -v

/-- The `add` handler: `@infix('ADD', 1)`. -/
def addF : Int → Int → Int := fun l r => l + r

/-- The `sub` handler: `@infix('SUB', 1)`. -/
def subF : Int → Int → Int := fun l r => l - r

/-- The `mul` handler: `@infix('MUL', 5)`. -/
def mulF : Int → Int → Int := fun l r => l * r

/-- The `div` handler: `@infix('DIV', 5)`.  Python `l / r` is float
division; no verified input performs a division, so `Int` division stands
in. -/
def divF : Int → Int → Int := fun l r => l / r

/-- The `parens` handler: `@surrounding('LPAREN', 'RPAREN', 0)`. -/
def idF : Int → Int := fun e => e

/-- The registrations of `CalcParse`, in the order `Parser.__init__`
collects them: the decorated handlers in the alphabetical order of
`dir(self)` (`add`, `div`, `mul`, `negate`, `parens`, `sub`), then the
empty `SYMBOLS`, then `LITERALS = ['INT']`. -/
def calcRegs : List (Reg Int) :=
  [.infixReg "ADD" 1 addF,
   .infixReg "DIV" 5 divF,
   .infixReg "MUL" 5 mulF,
   .prefixReg "SUB" 10 negF,
   .surroundingReg "LPAREN" "RPAREN" 0 idF,
   .infixReg "SUB" 1 subF,
   .literalReg "INT"]

/-- The registry `Parser.__init__` builds for `CalcParse`.  Note that
`SUB` ends with precedence `max 10 1 = 10`: the prefix registration of
`negate` raises the parselet precedence that the climbing loop consults,
while the infix `sub` handler still binds its right operand at 1. -/
def calcTbl : Table Int :=
  [("ADD", ⟨1, none, some (.infixH 1 addF)⟩),
   ("DIV", ⟨5, none, some (.infixH 5 divF)⟩),
   ("MUL", ⟨5, none, some (.infixH 5 mulF)⟩),
   ("SUB", ⟨10, some (.prefixH 10 negF), some (.infixH 1 subF)⟩),
   ("RPAREN", ⟨0, none, none⟩),
   ("LPAREN", ⟨0, some (.surroundH "RPAREN" idF), none⟩),
   ("INT", ⟨0, some .literalH, none⟩)]

/-- The end-to-end demo pipeline: lex with `CalcLex`, then parse with
`CalcParse`. -/
def parseDemo (fuel : Nat) (program : String) : Except PErr (Option Int) :=
  match lexTokens tagMapCalc calcMatch program with
  | .error e => .error e
  | .ok toks => parseProgram calcTbl fuel toks

/-- An exponentiation handler for the spec's right-associative example. -/
def powF : Int → Int → Int := fun l r => l ^ r.toNat

/-- A grammar with exponentiation registered through `infix_r` at
precedence 6 and integer literals, the spec's right-associative
example. -/
def expRegs : List (Reg Int) :=
  [.infixRReg "POW" 6 powF, .literalReg "INT"]

/-- The registry built for `expRegs`: the `infix_r` decorator stores
`6 - 1 = 5` both as the parselet precedence of `POW` and as the bound of
the recursive right-operand parse. -/
def expTbl : Table Int :=
  [("POW", ⟨5, none, some (.infixH 5 powF)⟩),
   ("INT", ⟨0, some .literalH, none⟩)]

/-- An arbitrary handler for a postfix registration. -/
def bangF : Int → Int := fun v => v + 1

/-- A grammar with a postfix operator `BANG` at precedence 8 and integer
literals. -/
def bangRegs : List (Reg Int) :=
  [.postfixReg "BANG" 8 bangF, .literalReg "INT"]

/-- The registry built for `bangRegs`. -/
def bangTbl : Table Int :=
  [("BANG", ⟨8, none, some (.postfixH bangF)⟩),
   ("INT", ⟨0, some .literalH, none⟩)]

/-- The token stream `CalcLex` produces for `"1 2"`. -/
def toksOneTwo : List (Token Int) := [⟨"INT", 1, "1"⟩, ⟨"INT", 2, "2"⟩]

/-- The parser state reached after the first `_parse` call on `"1 2"`:
the stream is drained, the lookahead holds the second `INT`, and
`input_remaining` is still true. -/
def stStuck : PState Int := ⟨[], ⟨"INT", 2, "2"⟩, true⟩

/-! ## Theorems

First the registry-construction facts and sanity checks tying the
concrete tables to `buildParselets`, then one theorem per claim of the
specification, with counterexamples and witnesses where needed. -/

/-- The registry of `CalcParse` is exactly `calcTbl`. -/
theorem calcTbl_builds : buildParselets calcRegs = .ok calcTbl := rfl

/-- The registry of the exponentiation grammar is exactly `expTbl`. -/
theorem expTbl_builds : buildParselets expRegs = .ok expTbl := rfl

/-- The registry of the postfix grammar is exactly `bangTbl`. -/
theorem bangTbl_builds : buildParselets bangRegs = .ok bangTbl := rfl

/-- Sanity: the spec's precedence example, `"1+2*3"` yields 7. -/
theorem parse_precedence_sanity : parseDemo 50 "1+2*3" = .ok (some 7) := by
  decide

/-- Sanity: the spec's grouping example, `"(1+2)*3"` yields 9. -/
theorem parse_grouping_sanity : parseDemo 50 "(1+2)*3" = .ok (some 9) := by
  decide

/-- C1: with exponentiation registered right-associative through
`infix_r` at precedence 6, parsing the token stream of `"2^3^2"` yields
`(2^3)^2 = 64`, not the claimed `2^(3^2) = 512`: the decorator stores
`6 - 1 = 5` before the registration runs, so the parselet precedence of
`POW` drops to 5 together with the right-operand bound, the climbing loop
stops at the next `POW` exactly as for a left-associative operator, and
the grouping stays left-to-right. -/
theorem parse_pow_chain_groups_left :
    parseProgram expTbl 50
      [⟨"INT", 2, "2"⟩, ⟨"POW", 0, "^"⟩, ⟨"INT", 3, "3"⟩,
       ⟨"POW", 0, "^"⟩, ⟨"INT", 2, "2"⟩] = .ok (some 64) := by
  decide

/-- C2: with the calculator grammar, parsing `"(1+2"` does not raise a
syntax error: the surrounding null handler discards the result of
`_advance('RPAREN')`, so the missing closer goes unnoticed and the parse
returns 3. -/
theorem parse_missing_closer_accepted :
    parseDemo 50 "(1+2" = .ok (some 3) := by decide

/-- Helper for C3: once the token stream of `"1 2"` is drained and the
second `INT` sits in the stale lookahead with `input_remaining` still
true, every further iteration of the top-level loop of `Parser.parse`
returns the seed unchanged without consuming anything, so the loop only
ever stops by running out of fuel. -/
theorem parseTop_stuck :
    ∀ (f : Nat) (v : Int),
      parseTop calcTbl f (some v) stStuck = .error .outOfFuel := by
  intro f
  induction f with
  | zero => intro v; rfl
  | succ n ih =>
    intro v
    cases n with
    | zero => rfl
    | succ m =>
      have step : parseTop calcTbl (m + 1 + 1) (some v) stStuck
          = parseTop calcTbl (m + 1) (some v) stStuck := rfl
      rw [step]
      exact ih v

/-- C3: the demo pipeline on `"1 2"` never terminates, whatever the
fuel: the first `_parse` returns 1 leaving the second `INT` token in the
lookahead with `input_remaining` true, and the top-level loop of
`Parser.parse` then re-invokes `_parse(left_value=1)` forever, since a
lookahead of precedence 0 makes the climbing loop return the seed
immediately without consuming a token. -/
theorem parse_one_two_diverges :
    ∀ fuel : Nat, parseDemo fuel "1 2" = .error .outOfFuel := by
  intro fuel
  have hl : lexTokens tagMapCalc calcMatch "1 2" = .ok toksOneTwo := by
    decide
  have hd : parseDemo fuel "1 2" = parseProgram calcTbl fuel toksOneTwo := by
    simp [parseDemo, hl]
  rw [hd]
  cases fuel with
  | zero => rfl
  | succ n =>
    cases n with
    | zero => rfl
    | succ m =>
      cases m with
      | zero => rfl
      | succ g =>
        have step : parseProgram calcTbl (g + 3) toksOneTwo
            = parseTop calcTbl (g + 2) (some 1) stStuck := rfl
        rw [step]
        exact parseTop_stuck (g + 2) 1

/-- C4: dispatching the left handler installed by a postfix registration
raises `TypeError` instead of applying the handler to the left value:
the closure `def left(token)` takes one parameter while `_call_left`
passes two.  With `BANG` registered postfix at precedence 8, parsing the
token stream of `"3!!"` crashes as soon as the first `BANG` is
dispatched. -/
theorem parse_postfix_dispatch_type_errors :
    parseProgram bangTbl 50
      [⟨"INT", 3, "3"⟩, ⟨"BANG", 0, "!"⟩, ⟨"BANG", 0, "!"⟩]
      = .error .typeError := by decide

/-- C5 counterexample: a lookahead token whose tag has no registry entry,
reached at the precedence test of the climbing loop, raises the `KeyError`
of the unchecked dictionary access, naming the tag `BANG`, not a syntax
error naming the raw text `"!"`. -/
theorem climb_unknown_tag_key_errors :
    parseProgram calcTbl 10 [⟨"INT", 1, "1"⟩, ⟨"BANG", 0, "!"⟩]
      = .error (.keyError "BANG") := by decide

/-- C5 amended: at the null-handler and left-handler dispatch points a
missing registry entry or a missing handler raises the syntax error
carrying the token's raw text, but the precedence test at the top of the
climbing loop looks the tag up unchecked, and an unregistered tag there
raises a `KeyError` carrying the tag name instead. -/
theorem dispatch_missing_handler_errors {V : Type} (tbl : Table V)
    (tok : Token V) (fuel : Nat) (maxBind : Int) (v : V) (st : PState V) :
    (List.lookup tok.tag tbl = none →
      nullHandlerOf tbl tok = .error (.unexpectedToken tok.text)
      ∧ leftHandlerOf tbl tok = .error (.unexpectedToken tok.text))
    ∧ (∀ p : Parselet V, List.lookup tok.tag tbl = some p → p.null = none →
      nullHandlerOf tbl tok = .error (.unexpectedToken tok.text))
    ∧ (∀ p : Parselet V, List.lookup tok.tag tbl = some p → p.left = none →
      leftHandlerOf tbl tok = .error (.unexpectedToken tok.text))
    ∧ (List.lookup st.lookahead.tag tbl = none →
      parseExpr tbl (fuel + 1) maxBind (some v) st
        = .error (.keyError st.lookahead.tag)) := by
  refine ⟨fun h => ⟨?_, ?_⟩, fun p hp hn => ?_, fun p hp hl => ?_, fun h => ?_⟩
  · simp [nullHandlerOf, getParselet, h]
  · simp [leftHandlerOf, getParselet, h]
  · simp [nullHandlerOf, getParselet, hp, hn]
  · simp [leftHandlerOf, getParselet, hp, hl]
  · simp [parseExpr, h]

/-- Witness for the amended C5 theorem at concrete inputs. -/
theorem dispatch_missing_handler_errors_witness :
    nullHandlerOf (V := Int) [] ⟨"FOO", 0, "?"⟩
      = .error (.unexpectedToken "?")
    ∧ leftHandlerOf calcTbl ⟨"INT", 1, "1"⟩ = .error (.unexpectedToken "1")
    ∧ parseExpr calcTbl 1 0 (some (1 : Int)) ⟨[], ⟨"BANG", 0, "!"⟩, true⟩
      = .error (.keyError "BANG") := by
  refine ⟨?_, ?_, ?_⟩
  · exact ((dispatch_missing_handler_errors [] ⟨"FOO", 0, "?"⟩ 0 0 0
      ⟨[], ⟨"FOO", 0, "?"⟩, true⟩).1 rfl).1
  · exact (dispatch_missing_handler_errors calcTbl ⟨"INT", 1, "1"⟩ 0 0 0
      ⟨[], ⟨"INT", 1, "1"⟩, true⟩).2.2.1 ⟨0, some .literalH, none⟩ rfl rfl
  · exact (dispatch_missing_handler_errors calcTbl ⟨"BANG", 0, "!"⟩ 0 0 1
      ⟨[], ⟨"BANG", 0, "!"⟩, true⟩).2.2.2 rfl

/-- C6 counterexample: lexing `"@"` with the demo lexer does not hand an
error-tagged token to the caller; the conversion function registered for
the catch-all tag (`lex_error`) raises while the token is being built, so
the whole lex raises `SyntaxError('Unable to parse input: @')` and no
token is produced. -/
theorem lex_unknown_char_raises :
    lexTokens tagMapCalc calcMatch "@" = .error (.unableToParse "@") := by
  decide

/-- C6 amended: when the scan produces a match carried by the catch-all
tag, the lexer itself raises the syntax error of `lex_error` on the
matched text, from inside token construction; no `LEX_ERROR` token is
emitted to the caller.  The hypothesis is the binding
`tag_map = {'LEX_ERROR': lex_error}` that `Lexer.__init__` always
establishes. -/
theorem lex_error_raised_in_lexer {V : Type}
    (tagMap : String → String → Except PErr V)
    (hmap : ∀ s, tagMap "LEX_ERROR" s = .error (.unableToParse s))
    (span sel : List Char) (ms : List (String × List Char × List Char)) :
    emitTokens tagMap (("LEX_ERROR", span, sel) :: ms)
      = .error (.unableToParse (String.mk sel)) := by
  have hpre : strStartsWith "LEX_ERROR" "IGNORE" = false := by decide
  simp [emitTokens, hpre, hmap]

/-- Witness for the amended C6 theorem at the demo lexer's tag map. -/
theorem lex_error_raised_in_lexer_witness :
    emitTokens tagMapCalc [("LEX_ERROR", ['@'], ['@'])]
      = .error (.unableToParse (String.mk ['@'])) :=
  lex_error_raised_in_lexer tagMapCalc (fun _ => rfl) ['@'] ['@'] []

/-- C7: with the calculator grammar, the token stream of `"8 - 3 - 2"`
parses to 7, that is `8 - (3 - 2)`, not the claimed left-associative 3:
the prefix registration of `negate` at precedence 10 raises the `SUB`
parselet precedence consulted by the climbing loop to `max 10 1 = 10`,
while the infix `sub` handler binds its right operand at 1, so the
recursive right-hand parse swallows the following `- 2`.  (The exact
spelling `"8-3-2"` is worse still: the `INT` pattern `-?\d+` precedes
`SUB` in the master alternation, the stream lexes as `8, -3, -2`, and the
parse diverges like `parse_one_two_diverges`.) -/
theorem parse_sub_chain_yields_seven :
    parseDemo 50 "8 - 3 - 2" = .ok (some 7) := by decide

/-- C8: registering a second null handler on a tag that has one, or a
second left handler on a tag that has one, raises the corresponding
`RuntimeError` from `Parselet.update` at registration time, while
registrations of distinct kinds on the same tag succeed, merging the
handlers and taking the maximum precedence. -/
theorem handler_reregistration_conflicts {V : Type} (tbl : Table V)
    (tag : String) (p : Parselet V) (prec : Int)
    (hfind : List.lookup tag tbl = some p) :
    (∀ (nh nh2 : NullH V) (lh2 : Option (LeftH V)), p.null = some nh →
      addOrUpdateParselet tbl tag prec (some nh2) lh2
        = .error .nullAlreadyDefined)
    ∧ (∀ (lh lh2 : LeftH V), p.left = some lh →
      addOrUpdateParselet tbl tag prec none (some lh2)
        = .error .leftAlreadyDefined)
    ∧ (∀ (nh : NullH V) (lh2 : LeftH V), p.null = some nh → p.left = none →
      addOrUpdateParselet tbl tag prec none (some lh2)
        = .ok (dictSet tbl tag ⟨max p.precedence prec, some nh, some lh2⟩))
    ∧ (∀ (lh : LeftH V) (nh2 : NullH V), p.left = some lh → p.null = none →
      addOrUpdateParselet tbl tag prec (some nh2) none
        = .ok (dictSet tbl tag ⟨max p.precedence prec, some nh2, some lh⟩)) := by
  obtain ⟨pp, pn, pl⟩ := p
  refine ⟨fun nh nh2 lh2 hn => ?_, fun lh lh2 hl => ?_,
    fun nh lh2 hn hl => ?_, fun lh nh2 hl hn => ?_⟩
  · simp only at hn
    subst hn
    simp [addOrUpdateParselet, hfind, Parselet.update]
  · simp only at hl
    subst hl
    simp [addOrUpdateParselet, hfind, Parselet.update]
  · simp only at hn hl
    subst hn
    subst hl
    simp [addOrUpdateParselet, hfind, Parselet.update]
  · simp only at hl hn
    subst hl
    subst hn
    simp [addOrUpdateParselet, hfind, Parselet.update]

/-- Witness for the C8 theorem at concrete registries. -/
theorem handler_reregistration_conflicts_witness :
    addOrUpdateParselet [("X", (⟨0, some .literalH, none⟩ : Parselet Int))]
      "X" 3 (some .literalH) none = .error .nullAlreadyDefined
    ∧ addOrUpdateParselet [("X", (⟨0, some .literalH, none⟩ : Parselet Int))]
      "X" 3 none (some (.postfixH bangF))
      = .ok [("X", ⟨3, some .literalH, some (.postfixH bangF)⟩)]
    ∧ addOrUpdateParselet
      [("Y", (⟨2, none, some (.postfixH bangF)⟩ : Parselet Int))]
      "Y" 0 none (some (.infixH 4 addF)) = .error .leftAlreadyDefined := by
  refine ⟨?_, ?_, ?_⟩
  · exact (handler_reregistration_conflicts
      [("X", (⟨0, some .literalH, none⟩ : Parselet Int))] "X"
      ⟨0, some .literalH, none⟩ 3 rfl).1 .literalH .literalH none rfl
  · exact (handler_reregistration_conflicts
      [("X", (⟨0, some .literalH, none⟩ : Parselet Int))] "X"
      ⟨0, some .literalH, none⟩ 3 rfl).2.2.1 .literalH (.postfixH bangF)
      rfl rfl
  · exact (handler_reregistration_conflicts
      [("Y", (⟨2, none, some (.postfixH bangF)⟩ : Parselet Int))] "Y"
      ⟨2, none, some (.postfixH bangF)⟩ 0 rfl).2.1 (.postfixH bangF)
      (.infixH 4 addF) rfl

/-- Helper for C9: over any scan bound at least the input length, when
every nonempty suffix of the input is covered by a configured pattern
with a match of nonzero length, the matched spans tile the input
exactly. -/
theorem scanGo_concat (m : List Char → Option (String × Nat × List Char)) :
    ∀ (bound : Nat) (s : List Char), s.length ≤ bound →
      (∀ s2 : List Char, s2.IsSuffix s → s2 ≠ [] → coveredAt m s2 = true) →
      ((scanGo m bound s).map (fun x => x.2.1)).flatten = s := by
  intro bound
  induction bound with
  | zero =>
    intro s hlen _
    have hs : s = [] := List.eq_nil_of_length_eq_zero (Nat.le_zero.mp hlen)
    subst hs
    rfl
  | succ k ih =>
    intro s hlen hcov
    match s with
    | [] => rfl
    | c :: rest =>
      have hc := hcov (c :: rest) (List.suffix_refl _) (by simp)
      cases hm : m (c :: rest) with
      | none => simp [coveredAt, hm] at hc
      | some tns =>
        obtain ⟨t, n, sel⟩ := tns
        simp [coveredAt, hm] at hc
        have hn : ¬ (n = 0) := hc.2
        have hlen2 : rest.length ≤ k := by
          simp only [List.length_cons] at hlen
          omega
        have hrec : ((scanGo m k (List.drop (n - 1) rest)).map
            (fun x => x.2.1)).flatten = List.drop (n - 1) rest := by
          apply ih
          · simp only [List.length_drop]
            omega
          · intro s2 hs2 hne
            exact hcov s2
              (hs2.trans ((List.drop_suffix _ _).trans
                (List.suffix_cons c rest))) hne
        simp only [scanGo, hm, if_neg hn, List.map_cons, List.flatten_cons]
        rw [hrec]
        simp [List.take_append_drop]

/-- C9: for an input every position of which is matched, as a nonempty
match, by one of the configured (non-catch-all) patterns, the matched
spans of all matches found by the scan of `Lexer.lex` — ignored matches
together with token-producing ones, in scan order — concatenate back to
the input exactly: total coverage with no gaps and no overlaps. -/
theorem lex_matches_reconstruct (m : List Char → Option (String × Nat × List Char))
    (input : List Char)
    (hcov : ∀ s : List Char, s.IsSuffix input → s ≠ [] → coveredAt m s = true) :
    ((scanMatches m input).map (fun x => x.2.1)).flatten = input :=
  scanGo_concat m input.length input le_rfl hcov

/-- Witness for the C9 theorem: a matcher covering every position with
single-character matches on the input `"ab"`. -/
theorem lex_matches_reconstruct_witness :
    ((scanMatches oneCharMatch ['a', 'b']).map (fun x => x.2.1)).flatten
      = ['a', 'b'] :=
  lex_matches_reconstruct oneCharMatch ['a', 'b']
    (fun s _ hne => by
      cases s with
      | nil => exact absurd rfl hne
      | cons c cs => rfl)

/-- Helper for C10: the tokens `Lexer.lex` emits do not depend on the
conversion functions of tags whose name starts with `IGNORE`, because
such matches are skipped before any conversion runs. -/
theorem emitTokens_conv_agree {V : Type}
    (tagMap tagMap2 : String → String → Except PErr V)
    (h : ∀ t s, strStartsWith t "IGNORE" = false → tagMap t s = tagMap2 t s) :
    ∀ ms, emitTokens tagMap ms = emitTokens tagMap2 ms := by
  intro ms
  induction ms with
  | nil => rfl
  | cons x rest ih =>
    obtain ⟨t, sp, sel⟩ := x
    by_cases hp : strStartsWith t "IGNORE" = true
    · simp [emitTokens, hp, ih]
    · have hp2 : strStartsWith t "IGNORE" = false := by
        simpa using hp
      simp [emitTokens, hp2, h t (String.mk sel) hp2, ih]

/-- Helper for C10: no emitted token carries a tag starting with
`IGNORE`. -/
theorem emitTokens_no_ignore {V : Type}
    (tagMap : String → String → Except PErr V) :
    ∀ (ms : List (String × List Char × List Char)) (toks : List (Token V)),
      emitTokens tagMap ms = .ok toks →
      ∀ tok ∈ toks, strStartsWith tok.tag "IGNORE" = false := by
  intro ms
  induction ms with
  | nil =>
    intro toks h tok htok
    simp only [emitTokens] at h
    cases h
    cases htok
  | cons x rest ih =>
    obtain ⟨t, sp, sel⟩ := x
    intro toks h tok htok
    by_cases hp : strStartsWith t "IGNORE" = true
    · simp only [emitTokens, hp, if_true] at h
      exact ih toks h tok htok
    · have hp2 : strStartsWith t "IGNORE" = false := by
        simpa using hp
      simp only [emitTokens, hp2, Bool.false_eq_true, if_false] at h
      cases hv : tagMap t (String.mk sel) with
      | error e => rw [hv] at h; cases h
      | ok v =>
        rw [hv] at h
        cases hr : emitTokens tagMap rest with
        | error e => rw [hr] at h; cases h
        | ok toks2 =>
          rw [hr] at h
          cases h
          rcases List.mem_cons.mp htok with heq | hmem
          · subst heq
            exact hp2
          · exact ih toks2 hr tok hmem

/-- C10: any tag whose name begins with `IGNORE` — however it was
registered, through `ignore`, `symbol` or the `tag` decorator — has all
its matches silently discarded by `Lexer.lex`: the emitted tokens are
unchanged when the conversion functions of all such tags are replaced
arbitrarily (so those conversions are never applied), and no emitted
token ever carries such a tag. -/
theorem ignore_prefixed_tags_discarded {V : Type}
    (tagMap tagMap2 : String → String → Except PErr V)
    (m : List Char → Option (String × Nat × List Char)) (input : String)
    (h : ∀ t s, strStartsWith t "IGNORE" = false → tagMap t s = tagMap2 t s) :
    lexTokens tagMap m input = lexTokens tagMap2 m input
    ∧ ∀ toks, lexTokens tagMap m input = .ok toks →
      ∀ tok ∈ toks, strStartsWith tok.tag "IGNORE" = false := by
  constructor
  · exact emitTokens_conv_agree tagMap tagMap2 h _
  · intro toks hok tok htok
    exact emitTokens_no_ignore tagMap _ toks hok tok htok

/-- Witness for the C10 theorem: the demo tag map against a variant that
converts `IGNORE`-prefixed tags to 99, on the input `"1 2"` whose space
is an ignored match. -/
theorem ignore_prefixed_tags_discarded_witness :
    lexTokens tagMapCalc calcMatch "1 2"
      = lexTokens tagMapCalcIgn calcMatch "1 2"
    ∧ ∀ toks, lexTokens tagMapCalc calcMatch "1 2" = .ok toks →
      ∀ tok ∈ toks, strStartsWith tok.tag "IGNORE" = false :=
  ignore_prefixed_tags_discarded tagMapCalc tagMapCalcIgn calcMatch "1 2"
    (fun t s hf => by simp [tagMapCalcIgn, hf])
